import Mathlib

/-!
Verification of the `les` execution engine against its specification.

Shallow embedding of:
  * `src/main/python/les/runtime/thread_pool.py`
      (`WorkRequest.__init__`, `Worker.run`, `ThreadPool.put_request`,
       `ThreadPool.poll`, `ThreadPool.wait`)
  * `src/main/python/les/executors/dummy_executor.py`
      (`DummyExecutor.run`, `DummyExecutor.execute`)

Opaque payloads (model parameters, solutions, callable return values,
exception info, callback objects) are modelled as natural numbers; Python
object identity and hashability are modelled explicitly where a claim
depends on them.
-/

namespace Les

/-! ## Python value model for `WorkRequest.__init__`

Only what the constructor touches: `hash(request_id)` succeeds on hashable
values and raises `TypeError` on unhashable ones.  CPython's integer hash
is `n % (2^61 - 1)` with sign carried over and the result `-1` adjusted to
`-2`. Lists are unhashable. -/

inductive PyValue : Type
  | int (n : Int)
  | list (xs : List Int)
deriving DecidableEq, Repr

def pyHashInt (n : Int) : Int :=
  let M : Int := 2 ^ 61 - 1
  let h : Int := if 0 ≤ n then n % M else -((-n) % M)
  if h = -1 then -2 else h

def pyHash : PyValue → Option Int
  | .int n => some (pyHashInt n)
  | .list _ => none

/-! ## WorkRequest

Embedding of `thread_pool.WorkRequest`.  The attributes are exactly those
assigned in `__init__`: `request_id`, `exception`, `callback`,
`exc_callback`, `callable`, `args`, `kwds`.  The Python object has no
attribute named `requestID`; accessing one raises `AttributeError`
(this matters for `ThreadPool.poll`).

Callback slots hold either `None` (falsy) or an opaque callable reference;
the callable and its arguments are opaque references, and the outcome of
actually invoking `callable(*args, **kwds)` is supplied to the Worker
model by a behaviour function. -/

structure WorkRequest where
  request_id : Int
  exception : Bool
  callback : Option Nat
  exc_callback : Option Nat
  callable : Nat
  args : List Nat
  kwds : List (Nat × Nat)
deriving DecidableEq, Repr

inductive MakeRequestResult : Type
  | typeError
  | ok (r : WorkRequest)
deriving DecidableEq, Repr

/-- Embedding of `WorkRequest.__init__`.  `selfId` is `id(self)`, the
identity of the freshly allocated object, supplied by the runtime.
`request_id = none` models passing `request_id=None` (the default);
`args = none` and `kwds = none` model the `None` defaults, replaced by
`[]` and `\x7b\x7d` through `args or []` and `kwds or \x7b\x7d`. -/
def WorkRequest.make (callable_ : Nat) (args : Option (List Nat))
    (kwds : Option (List (Nat × Nat))) (request_id : Option PyValue)
    (callback : Option Nat) (exc_callback : Option Nat)
    (selfId : Int) : MakeRequestResult :=
  match request_id with
  | none =>
      .ok { request_id := selfId, exception := false, callback := callback,
            exc_callback := exc_callback, callable := callable_,
            args := args.getD [], kwds := kwds.getD [] }
  | some v =>
      match pyHash v with
      | none => .typeError
      | some h =>
          .ok { request_id := h, exception := false, callback := callback,
                exc_callback := exc_callback, callable := callable_,
                args := args.getD [], kwds := kwds.getD [] }

/-! ## Worker

Embedding of `Worker.run` (thread_pool.py lines 103-121).  The two shared
queues are FIFO lists (head = next element handed out by `get`, `put`
appends at the tail).  A result-queue entry pairs the request object as
pushed (with its `exception` attribute as mutated by the worker) with the
pushed payload: the callable's return value or `sys.exc_info()`. -/

inductive WResult : Type
  | val (v : Nat)
  | excInfo (e : Nat)
deriving DecidableEq, Repr

structure WorkerQueues where
  requests_queue : List WorkRequest
  results_queue : List (WorkRequest × WResult)
deriving DecidableEq, Repr

inductive LoopControl : Type
  | exitLoop
  | continueLoop
deriving DecidableEq, Repr

/-- Outcome of `request.callable(*request.args, **request.kwds)`:
normal return value or raised exception info.  Invocation behaviour is
external to the pool, so the Worker model is parameterised over it. -/
def Invoke : Type := WorkRequest → Except Nat Nat

/-- Embedding of one iteration of the `while True` loop in `Worker.run`.
`d0` is the value `self._dismissed.isSet()` reads at the top of the loop
(line 106); `d1` is the value it reads after a successful `get`
(line 113); the flag is written concurrently by `dismiss()`, so the two
reads are independent inputs.  An empty requests queue models
`queue.Empty` being raised after the poll timeout (`continue`). -/
def Worker.runIter (invoke : Invoke) (d0 d1 : Bool) (st : WorkerQueues) :
    WorkerQueues × LoopControl :=
  if d0 then (st, .exitLoop)
  else
    match st.requests_queue with
    | [] => (st, .continueLoop)
    | request :: rest =>
        if d1 then
          ({ st with requests_queue := rest ++ [request] }, .exitLoop)
        else
          match invoke request with
          | .ok result =>
              ({ requests_queue := rest,
                 results_queue := st.results_queue ++ [(request, .val result)] },
               .continueLoop)
          | .error e =>
              ({ requests_queue := rest,
                 results_queue :=
                   st.results_queue ++ [({ request with exception := true }, .excInfo e)] },
               .continueLoop)

/-! ## ThreadPool

Embedding of the `ThreadPool` state (thread_pool.py lines 185-274).
Workers are opaque thread references.  The `workRequests` dict is an
association list keyed by `request.request_id`; Python dict assignment
replaces an existing binding. -/

structure ThreadPool where
  requests_queue : List WorkRequest
  q_size : Nat
  results_queue : List (WorkRequest × WResult)
  resq_size : Nat
  workers : List Nat
  dismissedWorkers : List Nat
  workRequests : List (Int × WorkRequest)
deriving DecidableEq, Repr

/-- Python dict assignment `d[k] = v` on the association-list model. -/
def dictInsert (k : Int) (v : WorkRequest) :
    List (Int × WorkRequest) → List (Int × WorkRequest)
  | [] => [(k, v)]
  | (k0, v0) :: rest =>
      if k0 = k then (k, v) :: rest else (k0, v0) :: dictInsert k v rest

inductive PutOutcome : Type
  | assertError
  | queueFull
  | wouldBlock
  | ok (st : ThreadPool)
deriving DecidableEq, Repr

/-- Embedding of `ThreadPool.put_request` (lines 244-249).
`assert not getattr(request, 'exception', None)` raises `AssertionError`
when the flag is already set.  `Queue.put(request, block, timeout)` on a
bounded full queue raises `queue.Full` immediately when `block` is false;
when `block` is true it waits (for `timeout` seconds, or forever), an
outcome that depends on concurrent consumers and real time and is
modelled as `wouldBlock`.  Otherwise the request is appended and recorded
in the pending map under `request.request_id`. -/
def ThreadPool.put_request (st : ThreadPool) (request : WorkRequest)
    (block : Bool) : PutOutcome :=
  if request.exception then .assertError
  else if 0 < st.q_size ∧ st.q_size ≤ st.requests_queue.length then
    if block then .wouldBlock else .queueFull
  else
    .ok { st with
          requests_queue := st.requests_queue ++ [request],
          workRequests := dictInsert request.request_id request st.workRequests }

/-- Callback invocations performed by `poll`, recorded as events:
`exc` is `request.exc_callback(request, result)`, `cb` is
`request.callback(request, result)`. -/
inductive CbEvent : Type
  | exc (request : WorkRequest) (res : WResult)
  | cb (request : WorkRequest) (res : WResult)
deriving DecidableEq, Repr

inductive PollOutcome : Type
  | noResultsPending
  | noWorkersAvailable
  | wouldBlock (st : ThreadPool) (events : List CbEvent)
  | attributeError (st : ThreadPool) (events : List CbEvent)
  | ok (st : ThreadPool) (events : List CbEvent)
deriving DecidableEq, Repr

/-- Callback dispatch of `poll` for one `(request, result)` pair, as
events: `request.exc_callback(request, result)` fires when the exception
flag is set and the failure callback is registered (non-`None`);
`request.callback(request, result)` fires when a success callback is
registered and not (exception flag set and failure callback registered). -/
def pollEvents (request : WorkRequest) (result : WResult) : List CbEvent :=
  (if request.exception && request.exc_callback.isSome then
    [CbEvent.exc request result] else []) ++
  (if request.callback.isSome && !(request.exception && request.exc_callback.isSome) then
    [CbEvent.cb request result] else [])

/-- Embedding of `ThreadPool.poll` (lines 251-266).  The body is a
`while True` loop, but no iteration of it can complete: each iteration
either raises `NoResultsPending` (empty pending map), raises
`NoWorkersAvailable` (`block` and no active workers), breaks out of the
loop (`queue.Empty` from a non-blocking `get` on an empty results queue),
blocks forever (blocking `get` on an empty results queue, modelled as
`wouldBlock`), or — after running the callbacks for the pair it got —
reaches `del self.workRequests[request.requestID]` and raises
`AttributeError`, because the `WorkRequest` attribute is named
`request_id` and no `requestID` attribute exists.  The loop therefore
runs at most one iteration and the embedding needs no recursion.
`AttributeError` is not `queue.Empty`, so it escapes `poll`; the pending
map is never touched. -/
def ThreadPool.poll (st : ThreadPool) (block : Bool) : PollOutcome :=
  if st.workRequests.isEmpty then .noResultsPending
  else if block && st.workers.isEmpty then .noWorkersAvailable
  else
    match st.results_queue with
    | [] => if block then .wouldBlock st [] else .ok st []
    | (request, result) :: rest =>
        .attributeError { st with results_queue := rest }
          (pollEvents request result)

inductive WaitOutcome : Type
  | done (st : ThreadPool) (events : List CbEvent)
  | noWorkersAvailable
  | wouldBlock (st : ThreadPool) (events : List CbEvent)
  | attributeError (st : ThreadPool) (events : List CbEvent)
  | fuelExhausted
deriving DecidableEq, Repr

/-- Embedding of the `while 1` loop of `ThreadPool.wait` (lines 268-274):
call `poll(True)`, catch only `NoResultsPending` and break; every other
outcome of `poll` (raised `NoWorkersAvailable` or `AttributeError`, or
blocking forever) escapes or hangs `wait`.  The loop is given fuel; a
normal `poll` return would consume one unit, but `waitAux_no_fuelExhausted`
below shows a blocking `poll` never returns normally, so any positive
fuel is enough. -/
def ThreadPool.waitAux : Nat → ThreadPool → List CbEvent → WaitOutcome
  | 0, _, _ => .fuelExhausted
  | fuel + 1, st, acc =>
      match st.poll true with
      | .noResultsPending => .done st acc
      | .noWorkersAvailable => .noWorkersAvailable
      | .wouldBlock st1 events => .wouldBlock st1 (acc ++ events)
      | .attributeError st1 events => .attributeError st1 (acc ++ events)
      | .ok st1 events => ThreadPool.waitAux fuel st1 (acc ++ events)

def ThreadPool.wait (st : ThreadPool) : WaitOutcome :=
  ThreadPool.waitAux (st.workRequests.length + 1) st []

/-! ## Executor

Embedding of `DummyExecutor.run` / `DummyExecutor.execute`
(dummy_executor.py lines 33-56).  `Task`, `Result` and the backend
adapters live outside src (in `executor_base.py`, `backend_solvers`
package and the pipeline); they are modelled from the spec at their
interface boundary. -/

/-- Modelled from the spec (§3, §6): a Task carries an identifier, an
opaque model-parameters payload (`get_model_parameters()`), and a
solver-kind selector (`get_solver_id()`). -/
structure Task where
  id : Nat
  model_parameters : Nat
  solver_id : Nat
deriving DecidableEq, Repr

/-- Modelled from the spec (§3): `executor_base.Result` pairs the task
identifier with the opaque solution payload, as constructed by
`Result(task.get_id(), solver.get_solution())`. -/
structure Result where
  task_id : Nat
  solution : Nat
deriving DecidableEq, Repr

/-- Modelled from the spec (§6): a backend adapter exposes
`load_model_params(params)` and `solve()`, either of which may raise, and
`get_solution()` after a successful solve.  Raising is recorded as the
corresponding flag being `false`; the numerical behaviour is opaque. -/
structure BackendSolver where
  loadOk : Nat → Bool
  solveOk : Bool
  solution : Nat

/-- Modelled from the spec (§4.1) and the call site
`backend_solvers.get_instance_of(task.get_solver_id())` followed by
`if not solver`: the registry lookup returns an adapter instance for a
registered kind and a falsy value (`None`) for an unregistered one.
The executor model is parameterised over it. -/
def Registry : Type := Nat → Option BackendSolver

inductive ExecError : Type
  | unknownBackend (solver_id : Nat)
deriving DecidableEq, Repr

/-- Embedding of `DummyExecutor.execute` (lines 41-56): resolve the
backend by `task.get_solver_id()`; if falsy, raise
`Error('Cannot instantiate backend solver by id: ...')` — outside any
`try`, so never caught here.  Then `load_model_params` and `solve` inside
`try/except Exception`: any raise is logged and `None` is returned.
Otherwise return `Result(task.get_id(), solver.get_solution())`. -/
def DummyExecutor.execute (get_instance_of : Registry) (task : Task) :
    Except ExecError (Option Result) :=
  match get_instance_of task.solver_id with
  | none => .error (.unknownBackend task.solver_id)
  | some solver =>
      if solver.loadOk task.model_parameters && solver.solveOk then
        .ok (some { task_id := task.id, solution := solver.solution })
      else
        .ok none

/-- Calls made by `run` on the pipeline, in order. -/
inductive PipelineEvent : Type
  | finalize_task (t : Task)
  | process_result (r : Result)
deriving DecidableEq, Repr

/-- Embedding of `DummyExecutor.run` (lines 33-39): consume the
pipeline's task stream in order; on `execute` returning `None` call
`finalize_task(task)` and continue, on a result call
`process_result(result)`; an exception from `execute` propagates,
aborting the loop after the pipeline calls already made.  Returns the
pipeline calls in order plus the escaped exception, if any. -/
def DummyExecutor.run (get_instance_of : Registry) :
    List Task → List PipelineEvent × Option ExecError
  | [] => ([], none)
  | task :: rest =>
      match DummyExecutor.execute get_instance_of task with
      | .error e => ([], some e)
      | .ok none =>
          (.finalize_task task :: (DummyExecutor.run get_instance_of rest).1,
           (DummyExecutor.run get_instance_of rest).2)
      | .ok (some result) =>
          (.process_result result :: (DummyExecutor.run get_instance_of rest).1,
           (DummyExecutor.run get_instance_of rest).2)

/-- Number of `finalize_task` calls whose task has identifier `i`. -/
def finalizeCountFor (i : Nat) (events : List PipelineEvent) : Nat :=
  (events.filter fun e =>
    match e with
    | .finalize_task t => t.id == i
    | .process_result _ => false).length

/-- Number of `process_result` calls whose result is for task `i`. -/
def processCountFor (i : Nat) (events : List PipelineEvent) : Nat :=
  (events.filter fun e =>
    match e with
    | .finalize_task _ => false
    | .process_result r => r.task_id == i).length

/-- Result queue left behind by a `poll` call: the two outcomes raised
before any `get` leave it untouched (`dflt`, the queue the call started
from); the others carry the post-state. -/
def PollOutcome.resultsAfter (dflt : List (WorkRequest × WResult)) :
    PollOutcome → List (WorkRequest × WResult)
  | .noResultsPending => dflt
  | .noWorkersAvailable => dflt
  | .wouldBlock st _ => st.results_queue
  | .attributeError st _ => st.results_queue
  | .ok st _ => st.results_queue

/-! ## Concrete instances used by witnesses and counterexamples -/

def reqC1 : WorkRequest :=
  { request_id := 1, exception := false, callback := some 7,
    exc_callback := some 8, callable := 0, args := [], kwds := [] }

def poolC1 : ThreadPool :=
  { requests_queue := [], q_size := 0, results_queue := [(reqC1, .val 42)],
    resq_size := 0, workers := [0], dismissedWorkers := [],
    workRequests := [(1, reqC1)] }

def regC2 : Registry := fun sid =>
  if sid = 1 then some { loadOk := fun _ => true, solveOk := true, solution := 99 }
  else none

def taskC2 : Task := { id := 0, model_parameters := 10, solver_id := 1 }

def resC2 : Result := { task_id := 0, solution := 99 }

def regC3 : Registry := fun _ => none

def taskC3 : Task := { id := 3, model_parameters := 7, solver_id := 5 }

def invokeC5 : Invoke := fun _ => .error 13

def reqC5 : WorkRequest :=
  { request_id := 2, exception := false, callback := none,
    exc_callback := some 1, callable := 5, args := [], kwds := [] }

def reqC6 : WorkRequest :=
  { request_id := 4, exception := false, callback := none,
    exc_callback := none, callable := 6, args := [], kwds := [] }

def poolC6 : ThreadPool :=
  { requests_queue := [], q_size := 0, results_queue := [], resq_size := 0,
    workers := [], dismissedWorkers := [], workRequests := [] }

def poolFullC6 : ThreadPool :=
  { requests_queue := [reqC6], q_size := 1, results_queue := [],
    resq_size := 0, workers := [], dismissedWorkers := [],
    workRequests := [(4, reqC6)] }

def poolC7a : ThreadPool :=
  { requests_queue := [], q_size := 0, results_queue := [], resq_size := 0,
    workers := [7], dismissedWorkers := [], workRequests := [] }

def reqC7 : WorkRequest :=
  { request_id := 9, exception := false, callback := none,
    exc_callback := none, callable := 0, args := [], kwds := [] }

def poolC7b : ThreadPool :=
  { requests_queue := [], q_size := 0, results_queue := [], resq_size := 0,
    workers := [], dismissedWorkers := [], workRequests := [(9, reqC7)] }

def reqC8 : WorkRequest :=
  { request_id := 11, exception := false, callback := some 3,
    exc_callback := none, callable := 0, args := [], kwds := [] }

def poolC8 : ThreadPool :=
  { requests_queue := [], q_size := 0, results_queue := [(reqC8, .val 5)],
    resq_size := 0, workers := [1], dismissedWorkers := [],
    workRequests := [(11, reqC8)] }

def reqC9 : WorkRequest :=
  { request_id := 0, exception := false, callback := none,
    exc_callback := none, callable := 0, args := [], kwds := [] }

def reqC10 : WorkRequest :=
  { request_id := 6, exception := false, callback := some 2,
    exc_callback := some 3, callable := 0, args := [], kwds := [] }

def poolC10 : ThreadPool :=
  { requests_queue := [], q_size := 0, results_queue := [], resq_size := 0,
    workers := [2], dismissedWorkers := [], workRequests := [(6, reqC10)] }

theorem poll_true_ne_ok (st : ThreadPool) (st1 : ThreadPool)
    (events : List CbEvent) : st.poll true ≠ .ok st1 events := by
  unfold ThreadPool.poll
  split
  · simp
  · split
    · simp
    · rcases h : st.results_queue with _ | ⟨⟨request, result⟩, rest⟩ <;> simp

theorem waitAux_no_fuelExhausted (fuel : Nat) (st : ThreadPool)
    (acc : List CbEvent) (h : 0 < fuel) :
    ThreadPool.waitAux fuel st acc ≠ .fuelExhausted := by
  match fuel with
  | 0 => exact absurd h (by simp)
  | fuel + 1 =>
      unfold ThreadPool.waitAux
      rcases hp : st.poll true with _ | _ | ⟨st1, events⟩ | ⟨st1, events⟩ | ⟨st1, events⟩ <;>
        simp
      exact absurd hp (poll_true_ne_ok st st1 events)

theorem finalizeCountFor_cons_fin (i : Nat) (t : Task)
    (evs : List PipelineEvent) :
    finalizeCountFor i (.finalize_task t :: evs) =
      finalizeCountFor i evs + (if t.id = i then 1 else 0) := by
  by_cases h : t.id = i <;> simp [finalizeCountFor, List.filter_cons, h]

theorem finalizeCountFor_cons_res (i : Nat) (r : Result)
    (evs : List PipelineEvent) :
    finalizeCountFor i (.process_result r :: evs) = finalizeCountFor i evs := by
  simp [finalizeCountFor, List.filter_cons]

theorem processCountFor_cons_fin (i : Nat) (t : Task)
    (evs : List PipelineEvent) :
    processCountFor i (.finalize_task t :: evs) = processCountFor i evs := by
  simp [processCountFor, List.filter_cons]

theorem processCountFor_cons_res (i : Nat) (r : Result)
    (evs : List PipelineEvent) :
    processCountFor i (.process_result r :: evs) =
      processCountFor i evs + (if r.task_id = i then 1 else 0) := by
  by_cases h : r.task_id = i <;> simp [processCountFor, List.filter_cons, h]

theorem execute_ok_some_task_id (reg : Registry) (t : Task) (r : Result)
    (h : DummyExecutor.execute reg t = .ok (some r)) : r.task_id = t.id := by
  unfold DummyExecutor.execute at h
  rcases hg : reg t.solver_id with _ | solver <;> rw [hg] at h <;> dsimp only at h
  · cases h
  · by_cases hc : solver.loadOk t.model_parameters && solver.solveOk
    · rw [if_pos hc] at h
      cases h
      rfl
    · rw [if_neg hc] at h
      cases h

theorem run_cons_error (reg : Registry) (u : Task) (ts : List Task)
    (e : ExecError) (h : DummyExecutor.execute reg u = .error e) :
    DummyExecutor.run reg (u :: ts) = ([], some e) := by
  simp only [DummyExecutor.run, h]

theorem run_cons_none (reg : Registry) (u : Task) (ts : List Task)
    (h : DummyExecutor.execute reg u = .ok none) :
    DummyExecutor.run reg (u :: ts) =
      (.finalize_task u :: (DummyExecutor.run reg ts).1,
       (DummyExecutor.run reg ts).2) := by
  simp only [DummyExecutor.run, h]

theorem run_cons_some (reg : Registry) (u : Task) (ts : List Task)
    (r : Result) (h : DummyExecutor.execute reg u = .ok (some r)) :
    DummyExecutor.run reg (u :: ts) =
      (.process_result r :: (DummyExecutor.run reg ts).1,
       (DummyExecutor.run reg ts).2) := by
  simp only [DummyExecutor.run, h]

theorem run_counts_zero (reg : Registry) (i : Nat) (ts : List Task)
    (h : ts.filter (fun u => u.id == i) = []) :
    finalizeCountFor i (DummyExecutor.run reg ts).1 = 0 ∧
      processCountFor i (DummyExecutor.run reg ts).1 = 0 := by
  induction ts with
  | nil => simp [DummyExecutor.run, finalizeCountFor, processCountFor]
  | cons u ts ih =>
      rw [List.filter_cons] at h
      split at h
      · cases h
      · rename_i hu
        obtain ⟨ihf, ihp⟩ := ih h
        have hune : u.id ≠ i := by
          intro he
          exact hu (by simp [he])
        rcases hex : DummyExecutor.execute reg u with e | _ | r
        · rw [run_cons_error reg u ts e hex]
          simp [finalizeCountFor, processCountFor]
        · rw [run_cons_none reg u ts hex]
          dsimp only
          rw [finalizeCountFor_cons_fin, processCountFor_cons_fin, if_neg hune]
          exact ⟨by omega, ihp⟩
        · have hr : r.task_id = u.id := execute_ok_some_task_id reg u r hex
          rw [run_cons_some reg u ts r hex]
          dsimp only
          rw [finalizeCountFor_cons_res, processCountFor_cons_res,
              if_neg (hr ▸ hune)]
          exact ⟨ihf, by omega⟩

theorem run_append_shift (reg : Registry) (i : Nat) (pre rest : List Task)
    (hok : ∀ u ∈ pre, ∃ o, DummyExecutor.execute reg u = .ok o)
    (hid : ∀ u ∈ pre, u.id ≠ i) :
    finalizeCountFor i (DummyExecutor.run reg (pre ++ rest)).1 =
      finalizeCountFor i (DummyExecutor.run reg rest).1 ∧
    processCountFor i (DummyExecutor.run reg (pre ++ rest)).1 =
      processCountFor i (DummyExecutor.run reg rest).1 ∧
    (DummyExecutor.run reg (pre ++ rest)).2 = (DummyExecutor.run reg rest).2 ∧
    ∀ e ∈ (DummyExecutor.run reg rest).1,
      e ∈ (DummyExecutor.run reg (pre ++ rest)).1 := by
  induction pre with
  | nil => simp
  | cons u pre ih =>
      obtain ⟨o, hex⟩ := hok u (List.mem_cons_self u pre)
      have hune : u.id ≠ i := hid u (List.mem_cons_self u pre)
      obtain ⟨ihf, ihp, ihe, ihm⟩ :=
        ih (fun v hv => hok v (List.mem_cons_of_mem u hv))
           (fun v hv => hid v (List.mem_cons_of_mem u hv))
      cases o with
      | none =>
          rw [List.cons_append, run_cons_none reg u (pre ++ rest) hex]
          dsimp only
          rw [finalizeCountFor_cons_fin, processCountFor_cons_fin, if_neg hune]
          refine ⟨by omega, ihp, ihe, ?_⟩
          intro e he
          exact List.mem_cons_of_mem _ (ihm e he)
      | some r =>
          have hr : r.task_id = u.id := execute_ok_some_task_id reg u r hex
          rw [List.cons_append, run_cons_some reg u (pre ++ rest) r hex]
          dsimp only
          rw [finalizeCountFor_cons_res, processCountFor_cons_res,
              if_neg (hr ▸ hune)]
          refine ⟨ihf, by omega, ihe, ?_⟩
          intro e he
          exact List.mem_cons_of_mem _ (ihm e he)

theorem filter_uniq_split (t : Task) (pre post : List Task)
    (huniq : (pre ++ t :: post).filter (fun u => u.id == t.id) = [t]) :
    pre.filter (fun u => u.id == t.id) = [] ∧
      post.filter (fun u => u.id == t.id) = [] := by
  rw [List.filter_append, List.filter_cons] at huniq
  rw [if_pos (by simp)] at huniq
  rcases hp : pre.filter (fun u => u.id == t.id) with _ | ⟨v, vs⟩
  · rw [hp] at huniq
    simp only [List.nil_append, List.cons.injEq, true_and] at huniq
    exact ⟨hp, huniq⟩
  · rw [hp] at huniq
    simp only [List.cons_append] at huniq
    have := congrArg List.length huniq
    simp at this

/-! ## Claim theorems -/

/-- C2: For every task consumed by `run()`: if `execute(task)` produces no
result (a load or solve error occurred), the Pipeline receives exactly one
`finalize_task(task)` call and zero `process_result` calls for that task;
if `execute(task)` produces a solution, the Pipeline receives exactly one
`process_result` call with `Result(task.id, solution)` and zero
`finalize_task` calls for that task.  The task stream is `pre ++ t :: post`
with `t` the task in question, `t.id` unique in the stream, and every task
before `t` executing without a raised error (so that `t` is consumed). -/
theorem run_dispatch_outcome (reg : Registry) (pre post : List Task)
    (t : Task)
    (huniq : (pre ++ t :: post).filter (fun u => u.id == t.id) = [t])
    (hpre : ∀ u ∈ pre, ∃ o, DummyExecutor.execute reg u = .ok o) :
    (DummyExecutor.execute reg t = .ok none →
      PipelineEvent.finalize_task t ∈
        (DummyExecutor.run reg (pre ++ t :: post)).1 ∧
      finalizeCountFor t.id (DummyExecutor.run reg (pre ++ t :: post)).1 = 1 ∧
      processCountFor t.id (DummyExecutor.run reg (pre ++ t :: post)).1 = 0) ∧
    (∀ r, DummyExecutor.execute reg t = .ok (some r) →
      r.task_id = t.id ∧
      PipelineEvent.process_result r ∈
        (DummyExecutor.run reg (pre ++ t :: post)).1 ∧
      processCountFor t.id (DummyExecutor.run reg (pre ++ t :: post)).1 = 1 ∧
      finalizeCountFor t.id (DummyExecutor.run reg (pre ++ t :: post)).1 = 0) := by
  obtain ⟨hpre0, hpost0⟩ := filter_uniq_split t pre post huniq
  have hidpre : ∀ u ∈ pre, u.id ≠ t.id := by
    intro u hu he
    have := List.filter_eq_nil_iff.mp hpre0 u hu
    simp [he] at this
  obtain ⟨hf, hp, _, hm⟩ := run_append_shift reg t.id pre (t :: post) hpre hidpre
  obtain ⟨hpostf, hpostp⟩ := run_counts_zero reg t.id post hpost0
  constructor
  · intro hex
    have hq := run_cons_none reg t post hex
    refine ⟨hm _ ?_, ?_, ?_⟩
    · rw [hq]
      exact List.mem_cons_self _ _
    · rw [hf, hq]
      dsimp only
      rw [finalizeCountFor_cons_fin, if_pos rfl]
      omega
    · rw [hp, hq]
      dsimp only
      rw [processCountFor_cons_fin]
      exact hpostp
  · intro r hex
    have hr : r.task_id = t.id := execute_ok_some_task_id reg t r hex
    have hq := run_cons_some reg t post r hex
    refine ⟨hr, hm _ ?_, ?_, ?_⟩
    · rw [hq]
      exact List.mem_cons_self _ _
    · rw [hp, hq]
      dsimp only
      rw [processCountFor_cons_res, if_pos hr]
      omega
    · rw [hf, hq]
      dsimp only
      rw [finalizeCountFor_cons_res]
      exact hpostf

theorem run_dispatch_outcome_witness :
    DummyExecutor.execute regC2 taskC2 = .ok (some resC2) ∧
    resC2.task_id = taskC2.id ∧
    PipelineEvent.process_result resC2 ∈
      (DummyExecutor.run regC2 ([] ++ taskC2 :: [])).1 ∧
    processCountFor taskC2.id (DummyExecutor.run regC2 ([] ++ taskC2 :: [])).1 = 1 ∧
    finalizeCountFor taskC2.id (DummyExecutor.run regC2 ([] ++ taskC2 :: [])).1 = 0 :=
  ⟨rfl,
   (run_dispatch_outcome regC2 [] [] taskC2 (by rfl) (by simp)).2 resC2 rfl⟩

theorem run_unknown_aux (reg : Registry) (t : Task)
    (hex : DummyExecutor.execute reg t = .error (.unknownBackend t.solver_id)) :
    ∀ tasks : List Task, tasks.filter (fun u => u.id == t.id) = [t] →
      (∃ e, (DummyExecutor.run reg tasks).2 = some e) ∧
      finalizeCountFor t.id (DummyExecutor.run reg tasks).1 = 0 ∧
      processCountFor t.id (DummyExecutor.run reg tasks).1 = 0 := by
  intro tasks
  induction tasks with
  | nil => intro h; cases h
  | cons u ts ih =>
      intro huniq
      rw [List.filter_cons] at huniq
      split at huniq
      · rename_i hbeq
        have hut : u = t := by
          rcases hp : ts.filter (fun v => v.id == t.id) with _ | ⟨w, ws⟩ <;>
            rw [hp] at huniq <;> simp only [List.cons.injEq] at huniq
          · exact huniq.1
          · exact huniq.1
        subst hut
        rw [run_cons_error reg u ts _ hex]
        exact ⟨⟨_, rfl⟩, by simp [finalizeCountFor], by simp [processCountFor]⟩
      · rename_i hbeq
        have hune : u.id ≠ t.id := by
          intro he
          exact hbeq (by simp [he])
        obtain ⟨⟨e2, he2⟩, ihf, ihp⟩ := ih huniq
        rcases hex2 : DummyExecutor.execute reg u with e | _ | r
        · rw [run_cons_error reg u ts e hex2]
          exact ⟨⟨e, rfl⟩, by simp [finalizeCountFor], by simp [processCountFor]⟩
        · rw [run_cons_none reg u ts hex2]
          dsimp only
          rw [finalizeCountFor_cons_fin, if_neg hune, processCountFor_cons_fin]
          exact ⟨⟨e2, he2⟩, by omega, ihp⟩
        · have hr : r.task_id = u.id := execute_ok_some_task_id reg u r hex2
          rw [run_cons_some reg u ts r hex2]
          dsimp only
          rw [finalizeCountFor_cons_res, processCountFor_cons_res,
              if_neg (hr ▸ hune)]
          exact ⟨⟨e2, he2⟩, ihf, by omega⟩

/-- C3: For every task whose solver-kind selector resolves to no
registered backend, `execute` raises an unknown-backend error; the error
is not caught inside `execute` or `run`, it propagates out of `run()`
(which therefore ends with an escaped exception), and `run()` calls
neither `finalize_task` nor `process_result` for that task. -/
theorem run_unknown_backend_propagates (reg : Registry) (tasks : List Task)
    (t : Task)
    (huniq : tasks.filter (fun u => u.id == t.id) = [t])
    (hreg : reg t.solver_id = none) :
    DummyExecutor.execute reg t = .error (.unknownBackend t.solver_id) ∧
    (∃ e, (DummyExecutor.run reg tasks).2 = some e) ∧
    finalizeCountFor t.id (DummyExecutor.run reg tasks).1 = 0 ∧
    processCountFor t.id (DummyExecutor.run reg tasks).1 = 0 := by
  have hex : DummyExecutor.execute reg t = .error (.unknownBackend t.solver_id) := by
    unfold DummyExecutor.execute
    rw [hreg]
  exact ⟨hex, run_unknown_aux reg t hex tasks huniq⟩

theorem run_unknown_backend_propagates_witness :
    ([taskC3].filter (fun u => u.id == taskC3.id) = [taskC3]) ∧
    regC3 taskC3.solver_id = none ∧
    (DummyExecutor.execute regC3 taskC3 =
       .error (.unknownBackend taskC3.solver_id) ∧
     (∃ e, (DummyExecutor.run regC3 [taskC3]).2 = some e) ∧
     finalizeCountFor taskC3.id (DummyExecutor.run regC3 [taskC3]).1 = 0 ∧
     processCountFor taskC3.id (DummyExecutor.run regC3 [taskC3]).1 = 0) :=
  ⟨by decide, rfl,
   run_unknown_backend_propagates regC3 [taskC3] taskC3 (by decide) rfl⟩

/-- C1: claimed behaviour is that after the callback dispatch the request
is removed from the pending map.  Evaluating the code at a concrete
failing input: a pool with one pending request whose result is on the
result queue.  `poll(block=False)` invokes the success callback as
claimed, but then `del self.workRequests[request.requestID]` raises
`AttributeError` (the attribute is `request_id`), so the request is never
removed from the pending map. -/
theorem poll_deletion_attribute_error :
    poolC1.poll false =
      .attributeError { poolC1 with results_queue := [] }
        [CbEvent.cb reqC1 (.val 42)] ∧
    ({ poolC1 with results_queue := [] } : ThreadPool).workRequests =
      poolC1.workRequests := by
  exact ⟨rfl, rfl⟩

/-- C4: For every Worker loop iteration in which a request is dequeued
after the worker's dismissal flag has been set (first flag read false so
the `get` happens, second read true), the worker puts that request back
onto the submission queue unconsumed — the result queue is untouched and
the outcome does not depend on the callable's behaviour — and exits its
loop. -/
theorem worker_dismissed_requeues (invoke invoke2 : Invoke)
    (request : WorkRequest) (rest : List WorkRequest)
    (results : List (WorkRequest × WResult)) :
    Worker.runIter invoke false true ⟨request :: rest, results⟩ =
      (⟨rest ++ [request], results⟩, .exitLoop) ∧
    Worker.runIter invoke false true ⟨request :: rest, results⟩ =
      Worker.runIter invoke2 false true ⟨request :: rest, results⟩ := by
  exact ⟨rfl, rfl⟩

/-- C5: For every request whose callable raises any error when invoked by
a Worker, the Worker sets that request's exception flag to true and
pushes the pair (request, error-info) onto the result queue; the error is
swallowed by the bare `except:` so the Worker's loop continues. -/
theorem worker_relays_failure (invoke : Invoke) (request : WorkRequest)
    (rest : List WorkRequest) (results : List (WorkRequest × WResult))
    (e : Nat) (hinv : invoke request = .error e) :
    Worker.runIter invoke false false ⟨request :: rest, results⟩ =
      (⟨rest, results ++ [({ request with exception := true }, .excInfo e)]⟩,
       .continueLoop) := by
  simp [Worker.runIter, hinv]

theorem worker_relays_failure_witness :
    invokeC5 reqC5 = .error 13 ∧
    Worker.runIter invokeC5 false false ⟨[reqC5], []⟩ =
      (⟨[], [({ reqC5 with exception := true }, .excInfo 13)]⟩,
       .continueLoop) :=
  ⟨rfl, worker_relays_failure invokeC5 reqC5 [] [] 13 rfl⟩

/-- C6: `put_request` fails with a defensive error (`AssertionError`) for
every request whose exception flag is already set, and such a request is
never enqueued; for a request not so flagged it fails with a queue-full
error when non-blocking and the bounded submission queue is full, and on
successful enqueue appends the request to the submission queue and
records it in the pending map keyed by its identifier. -/
theorem put_request_contract (st : ThreadPool) (request : WorkRequest)
    (block : Bool) :
    (request.exception = true → st.put_request request block = .assertError) ∧
    (request.exception = false → 0 < st.q_size →
      st.q_size ≤ st.requests_queue.length →
      st.put_request request false = .queueFull) ∧
    (request.exception = false →
      (st.q_size = 0 ∨ st.requests_queue.length < st.q_size) →
      st.put_request request block =
        .ok { st with
              requests_queue := st.requests_queue ++ [request],
              workRequests :=
                dictInsert request.request_id request st.workRequests }) := by
  refine ⟨?_, ?_, ?_⟩
  · intro h
    simp [ThreadPool.put_request, h]
  · intro h h1 h2
    simp [ThreadPool.put_request, h, h1, h2]
  · intro h hcap
    have hcond : ¬(0 < st.q_size ∧ st.q_size ≤ st.requests_queue.length) := by
      rcases hcap with h0 | hlt <;> omega
    simp [ThreadPool.put_request, h, hcond]

theorem put_request_contract_witness :
    poolC6.put_request { reqC6 with exception := true } true = .assertError ∧
    poolFullC6.put_request reqC6 false = .queueFull ∧
    poolC6.put_request reqC6 false =
      .ok { poolC6 with requests_queue := [reqC6],
                        workRequests := [(4, reqC6)] } :=
  ⟨(put_request_contract poolC6 { reqC6 with exception := true } true).1 rfl,
   (put_request_contract poolFullC6 reqC6 false).2.1 rfl (by decide) (by decide),
   (put_request_contract poolC6 reqC6 false).2.2 rfl (Or.inl rfl)⟩

/-- C7: `poll` raises `NoResultsPending` whenever the pending map is empty
at the start of a drain attempt (in particular `poll(block=False)` with an
empty pending map); and when `block` is true, the pending map non-empty
and the active-worker list empty, it raises `NoWorkersAvailable` instead
of blocking. -/
theorem poll_error_signals (st : ThreadPool) (block : Bool) :
    (st.workRequests = [] → st.poll block = .noResultsPending) ∧
    (st.workRequests = [] → st.poll false = .noResultsPending) ∧
    (st.workRequests ≠ [] → st.workers = [] →
      st.poll true = .noWorkersAvailable) := by
  refine ⟨?_, ?_, ?_⟩
  · intro h
    simp [ThreadPool.poll, h]
  · intro h
    simp [ThreadPool.poll, h]
  · intro h1 h2
    simp [ThreadPool.poll, h1, h2]

theorem poll_error_signals_witness :
    poolC7a.poll false = .noResultsPending ∧
    poolC7b.poll true = .noWorkersAvailable :=
  ⟨(poll_error_signals poolC7a false).2.1 rfl,
   (poll_error_signals poolC7b true).2.2 (by decide) rfl⟩

/-- C10: Whenever the pending map is non-empty and the result queue is
empty, `poll(block=False)` returns normally with no callback events and
the identical pool state: pending map, active-worker list,
dismissed-worker list and both queues unchanged. -/
theorem poll_nonblocking_noop (st : ThreadPool)
    (hpend : st.workRequests ≠ []) (hres : st.results_queue = []) :
    st.poll false = .ok st [] := by
  simp [ThreadPool.poll, hpend, hres]

theorem poll_nonblocking_noop_witness :
    poolC10.workRequests ≠ [] ∧ poolC10.results_queue = [] ∧
    poolC10.poll false = .ok poolC10 [] :=
  ⟨by decide, rfl, poll_nonblocking_noop poolC10 (by decide) rfl⟩

theorem poll_pair (st : ThreadPool) (block : Bool) (request : WorkRequest)
    (result : WResult) (rest : List (WorkRequest × WResult))
    (h1 : st.workRequests.isEmpty = false)
    (h2 : (block && st.workers.isEmpty) = false)
    (hq : st.results_queue = (request, result) :: rest) :
    st.poll block =
      .attributeError { st with results_queue := rest }
        (pollEvents request result) := by
  simp [ThreadPool.poll, h1, h2, hq]

/-- C8 counterexample: the claim says `wait` achieves a barrier by calling
`poll(block=True)` repeatedly until `NoResultsPending` is raised, draining
every outstanding request.  At this concrete pool — one pending request
whose result is available and one active worker — `wait` instead
propagates the `AttributeError` raised by poll's pending-map deletion,
leaving the request still pending. -/
theorem wait_barrier_counterexample :
    poolC8.wait =
      .attributeError { poolC8 with results_queue := [] }
        [CbEvent.cb reqC8 (.val 5)] ∧
    ({ poolC8 with results_queue := [] } : ThreadPool).workRequests ≠ [] := by
  exact ⟨rfl, by decide⟩

/-- C8 amended: each single call to `poll(block)` drains and delivers at
most one `(request, result)` pair from the result queue before returning
or raising — on the code as written because, after the callbacks for the
first pair run, the pending-map deletion raises `AttributeError`.  `wait`
does call `poll(block=True)` repeatedly until `NoResultsPending` is
raised, but it does not achieve the barrier: whenever the pending map and
the result queue are both non-empty (and a worker is active, so
`NoWorkersAvailable` is not raised first), the `AttributeError` from
`poll` propagates out of `wait`. -/
theorem poll_drains_at_most_one (st : ThreadPool) (block : Bool) :
    ((st.poll block).resultsAfter st.results_queue = st.results_queue ∨
     (st.poll block).resultsAfter st.results_queue = st.results_queue.tail) ∧
    (st.workRequests ≠ [] → st.workers ≠ [] → st.results_queue ≠ [] →
      ∃ st1 events, st.wait = .attributeError st1 events) := by
  constructor
  · by_cases h1 : st.workRequests.isEmpty
    · left
      simp [ThreadPool.poll, h1, PollOutcome.resultsAfter]
    · by_cases h2 : block && st.workers.isEmpty
      · left
        simp [ThreadPool.poll, h1, h2, PollOutcome.resultsAfter]
      · rcases hq : st.results_queue with _ | ⟨⟨request, result⟩, rest⟩
        · left
          cases block <;>
            simp [ThreadPool.poll, h1, h2, hq, PollOutcome.resultsAfter]
        · right
          rw [poll_pair st block request result rest
                (by simpa using h1) (by simpa using h2) hq]
          simp [PollOutcome.resultsAfter, hq]
  · intro hpend hw hres
    rcases hq : st.results_queue with _ | ⟨⟨request, result⟩, rest⟩
    · exact absurd hq hres
    · have h1 : st.workRequests.isEmpty = false := by
        rcases hl : st.workRequests with _ | ⟨a, as⟩
        · exact absurd hl hpend
        · simp
      have h2 : (true && st.workers.isEmpty) = false := by
        rcases hwl : st.workers with _ | ⟨b, bs⟩
        · exact absurd hwl hw
        · simp
      have hpoll := poll_pair st true request result rest h1 h2 hq
      refine ⟨{ st with results_queue := rest },
              [] ++ pollEvents request result, ?_⟩
      unfold ThreadPool.wait
      simp only [ThreadPool.waitAux]
      rw [hpoll]

theorem poll_drains_at_most_one_witness :
    (poolC8.workRequests ≠ [] ∧ poolC8.workers ≠ [] ∧
     poolC8.results_queue ≠ []) ∧
    (∃ st1 events, poolC8.wait = .attributeError st1 events) :=
  ⟨⟨by decide, by decide, by decide⟩,
   (poll_drains_at_most_one poolC8 true).2 (by decide) (by decide) (by decide)⟩

/-- C9: the `WorkRequest` constructor stores `hash(request_id)` — not the
supplied identifier itself — as the request's identifier (so two
identifiers with equal hashes collide in the pending map), raises
`TypeError` when the supplied identifier is unhashable, uses `id(self)`
when no identifier is supplied, and always initializes the exception flag
to false. -/
theorem make_request_hashes_id (c : Nat) (args : Option (List Nat))
    (kwds : Option (List (Nat × Nat))) (cb ecb : Option Nat) :
    (∀ (v : PyValue) (h selfId : Int), pyHash v = some h →
      WorkRequest.make c args kwds (some v) cb ecb selfId =
        .ok { request_id := h, exception := false, callback := cb,
              exc_callback := ecb, callable := c, args := args.getD [],
              kwds := kwds.getD [] }) ∧
    (∀ (v : PyValue) (selfId : Int), pyHash v = none →
      WorkRequest.make c args kwds (some v) cb ecb selfId = .typeError) ∧
    (∀ selfId : Int,
      WorkRequest.make c args kwds none cb ecb selfId =
        .ok { request_id := selfId, exception := false, callback := cb,
              exc_callback := ecb, callable := c, args := args.getD [],
              kwds := kwds.getD [] }) ∧
    (∀ (v1 v2 : PyValue) (s1 s2 : Int) (r1 r2 : WorkRequest),
      pyHash v1 = pyHash v2 →
      WorkRequest.make c args kwds (some v1) cb ecb s1 = .ok r1 →
      WorkRequest.make c args kwds (some v2) cb ecb s2 = .ok r2 →
      r1.request_id = r2.request_id) ∧
    (∀ (rid : Option PyValue) (selfId : Int) (r : WorkRequest),
      WorkRequest.make c args kwds rid cb ecb selfId = .ok r →
      r.exception = false) := by
  refine ⟨?_, ?_, ?_, ?_, ?_⟩
  · intro v h selfId hv
    simp [WorkRequest.make, hv]
  · intro v selfId hv
    simp [WorkRequest.make, hv]
  · intro selfId
    rfl
  · intro v1 v2 s1 s2 r1 r2 hpv hm1 hm2
    rcases hv1 : pyHash v1 with _ | h
    · rw [hv1] at hpv
      simp [WorkRequest.make, hv1] at hm1
    · have hv2 : pyHash v2 = some h := by
        rw [← hpv, hv1]
      simp [WorkRequest.make, hv1] at hm1
      simp [WorkRequest.make, hv2] at hm2
      rw [← hm1, ← hm2]
  · intro rid selfId r hm
    rcases rid with _ | v
    · simp [WorkRequest.make] at hm
      rw [← hm]
    · rcases hv : pyHash v with _ | h
      · simp [WorkRequest.make, hv] at hm
      · simp [WorkRequest.make, hv] at hm
        rw [← hm]

theorem make_request_hashes_id_witness :
    pyHash (PyValue.int 0) = some 0 ∧
    pyHash (PyValue.int (2 ^ 61 - 1)) = some 0 ∧
    PyValue.int 0 ≠ PyValue.int (2 ^ 61 - 1) ∧
    WorkRequest.make 0 none none (some (.int 0)) none none 100 = .ok reqC9 ∧
    WorkRequest.make 0 none none (some (.int (2 ^ 61 - 1))) none none 101 =
      .ok reqC9 ∧
    pyHash (PyValue.list [1]) = none ∧
    WorkRequest.make 0 none none (some (.list [1])) none none 102 =
      .typeError :=
  ⟨by decide, by decide, by decide,
   (make_request_hashes_id 0 none none none none).1 (.int 0) 0 100 (by decide),
   (make_request_hashes_id 0 none none none none).1 (.int (2 ^ 61 - 1)) 0 101
     (by decide),
   rfl,
   (make_request_hashes_id 0 none none none none).2.1 (.list [1]) 102 rfl⟩

end Les
